import Mathlib

set_option maxRecDepth 40000

/-!
Shallow embedding of the OBRA upgrade calculator's rating and upgrade logic
(`rankings.py`, `upgrades.py`, `data.py`), with theorems checking the
natural-language specification against it.

Dates are modelled as integers counting days since 1970-01-01, so that
`d2 - d1` is the Python `(date2 - date1).days`.  Python 3 true division on
ints is modelled with exact rational arithmetic (`ℚ`).
-/

namespace Obra

/-- Ascending sort, used to model SQL `ORDER BY ... ASC` queries and Python
`sorted`/`min`/`max` on homogeneous values. -/
def sortAsc {α : Type} [LinearOrder α] (l : List α) : List α :=
  l.insertionSort (· ≤ ·)

/-- Exact rational addition, written with `Rat.divInt` so that closed terms
evaluate inside the kernel; `qAdd_eq` shows it agrees with `+`. -/
def qAdd (a b : ℚ) : ℚ :=
  Rat.divInt (a.num * (b.den : ℤ) + b.num * (a.den : ℤ)) ((a.den : ℤ) * (b.den : ℤ))

/-- Exact rational subtraction (see `qAdd`); agrees with `-` by `qSub_eq`. -/
def qSub (a b : ℚ) : ℚ :=
  Rat.divInt (a.num * (b.den : ℤ) - b.num * (a.den : ℤ)) ((a.den : ℤ) * (b.den : ℤ))

/-- Exact rational multiplication (see `qAdd`); agrees with `*` by `qMul_eq`. -/
def qMul (a b : ℚ) : ℚ :=
  Rat.divInt (a.num * b.num) ((a.den : ℤ) * (b.den : ℤ))

/-- Exact rational division (see `qAdd`); agrees with `/` for a non-zero
divisor by `qDiv_eq`.  Python raises `ZeroDivisionError` on a zero divisor;
every divisor in the embedded code is provably non-zero. -/
def qDiv (a b : ℚ) : ℚ :=
  Rat.divInt (a.num * (b.den : ℤ)) ((a.den : ℤ) * b.num)

/-- Python `sum` over a list of exact rationals; agrees with `List.sum` by
`qSum_eq`. -/
def qSum (l : List ℚ) : ℚ :=
  l.foldl qAdd 0

/-- Python `int()` truncation toward zero of an exact rational. -/
def pyTrunc (q : ℚ) : ℤ :=
  if 0 ≤ q then ⌊q⌋ else -⌊-q⌋

/-- One row of a person's `Rank` history: `(race date, rank value)`.  Rank
values are stored in an `IntegerField`. -/
abbrev RankRow := ℤ × ℤ

/-- The person's `Rank.value`s selected by the query in `get_rank`: results in
the discipline whose race date lies in `[end_date - 365, end_date]`. -/
def qualifyingRanks (history : List RankRow) (end_date : ℤ) : List ℤ :=
  (history.filter (fun p => decide (end_date - 365 ≤ p.1) && decide (p.1 ≤ end_date))).map Prod.snd

/-- The foreign keys declared in `models.py`, as (model, target model) pairs:
`Event.series`, `Event.parent`, `Race.event`, `ObraPersonSnapshot.person`,
`Result.race`, `Result.person`, `Points.result`,
`Points.upgrade_confirmation`, `Rank.result`, `Quality.race`. -/
def MODEL_FKS : List (String × String) :=
  [("Event", "Series"), ("Event", "Event"), ("Race", "Event"),
   ("ObraPersonSnapshot", "Person"), ("Result", "Race"), ("Result", "Person"),
   ("Points", "Result"), ("Points", "ObraPersonSnapshot"), ("Rank", "Result"),
   ("Quality", "Race")]

/-- Peewee resolves `join(dest, src=src)` with no explicit condition through a
foreign key declared in either direction between `src` and `dest`; if none
exists it raises `ValueError("Unable to find foreign key ...")` at query
construction. -/
def canJoin (src dest : String) : Bool :=
  decide ((src, dest) ∈ MODEL_FKS) || decide ((dest, src) ∈ MODEL_FKS)

/-- All joins of a query resolve. -/
def resolveJoins (joins : List (String × String)) : Bool :=
  joins.all (fun j => canJoin j.1 j.2)

/-- The join chain built by the query in `rankings.get_rank` (lines 28-30):
`.join(Result, src=Rank).join(Race, src=Result).join(Event, src=Result)`. -/
def get_rank_joins : List (String × String) :=
  [("Rank", "Result"), ("Result", "Race"), ("Result", "Event")]

/-- The mean the `get_rank` query would compute: five default 600s, plus the
five lowest qualifying rank values (the query orders ascending and applies
`LIMIT 5`), then the mean of the five lowest of that collection. -/
def get_rank_value (history : List RankRow) (end_date : ℤ) : ℚ :=
  let ranks : List ℤ := List.replicate 5 600 ++ (sortAsc (qualifyingRanks history end_date)).take 5
  qDiv ((((sortAsc ranks).take 5).sum : ℤ) : ℚ) 5

/-- `rankings.get_rank`.  Its query joins `Event` with `src=Result`, but no
foreign key relates `Result` and `Event` (the FK path goes through `Race`),
so peewee raises `ValueError` while the query is being built and the function
never returns: `none` models that exception.  The value it would compute is
in the (unreachable) `some` branch. -/
def get_rank (history : List RankRow) (end_date : ℤ) : Option ℚ :=
  if resolveJoins get_rank_joins then some (get_rank_value history end_date) else none

/-- `get_rank` with the join chain used everywhere else in the codebase
(`.join(Event, src=Race)`, e.g. rankings.py line 48): every join resolves
through a declared foreign key and the query returns the person's windowed
rank values. -/
def get_rank_fixed (history : List RankRow) (end_date : ℤ) : Option ℚ :=
  if resolveJoins [("Rank", "Result"), ("Result", "Race"), ("Race", "Event")] then
    some (get_rank_value history end_date)
  else none

/-- The spec's `priorRank`, written from the spec's words: the average of the
best 5 values among five default entries of 600 plus ALL of the person's
qualifying rank values (no `LIMIT 5` pre-selection). -/
def priorRankSpec (history : List RankRow) (end_date : ℤ) : ℚ :=
  let ranks : List ℤ := List.replicate 5 600 ++ qualifyingRanks history end_date
  qDiv ((((sortAsc ranks).take 5).sum : ℤ) : ℚ) 5

/-- Value of the leading decimal digits of a character list (0 if none),
as used by SQLite when casting a string to INTEGER. -/
def digitsVal (l : List Char) : ℤ :=
  (l.takeWhile Char.isDigit).foldl (fun a c => a * 10 + ((c.toNat : ℤ) - 48)) 0

/-- SQLite `CAST(place AS INTEGER)`: optional sign, then the value of the
leading digits, and 0 for a non-numeric prefix. -/
def sqliteCastInt (s : String) : ℤ :=
  match s.data with
  | [] => 0
  | c :: rest =>
    if c = '-' then -(digitsVal rest)
    else if c = '+' then digitsVal rest
    else digitsVal (c :: rest)

/-- Value of an all-digit character list, `none` otherwise. -/
def allDigitsVal (l : List Char) : Option ℤ :=
  if l ≠ [] ∧ l.all Char.isDigit then some (digitsVal l) else none

/-- Python `int(s)` on a string: optional sign followed by digits only;
`none` models the `ValueError` raised otherwise. -/
def pyStrInt (s : String) : Option ℤ :=
  match s.data with
  | [] => none
  | c :: rest =>
    if c = '-' then (allDigitsVal rest).map (fun n => -n)
    else if c = '+' then allDigitsVal rest
    else allDigitsVal (c :: rest)

/-- A string's characters, lower-cased (Python `str.lower`). -/
def lowerData (s : String) : List Char :=
  s.data.map Char.toLower

/-- The peewee filter `Result.place ** 'DN%'` (case-insensitive LIKE). -/
def likeDN (s : String) : Bool :=
  (lowerData s).take 2 = ['d', 'n']

/-- One `Result` row of a race as `calculate_race_ranks` sees it: the raw
place string and the person's `Rank` history rows in this discipline (the
data `get_rank` queries). -/
structure RaceEntry where
  place : String
  history : List RankRow

/-- The finisher query of `calculate_race_ranks`: results whose place is not
LIKE 'DN%' and casts to a positive integer, ordered by the integer cast of
place, ascending. -/
def race_finishers (results : List RaceEntry) : List RaceEntry :=
  (results.filter (fun r => !(likeDN r.place) && decide (0 < sqliteCastInt r.place))).insertionSort
    (fun a b => sqliteCastInt a.place ≤ sqliteCastInt b.place)

/-- The `Quality` figures of `rankings.calculate_race_ranks` for one race with
finisher list `fs`, parameterized by the prior-rank lookup `gr` (whose `none`
models a raised exception, propagated): `(value, points_per_place)`.  The
top-10 lookups of line 86 run first; `min(ranks)` is written as a fold whose
base 600 is itself a member of the list, so it is the exact minimum. -/
def race_quality_with (gr : List RankRow → ℤ → Option ℚ) (race_date : ℤ)
    (fs : List RaceEntry) : Option (ℚ × ℚ) :=
  match (fs.take 10).mapM (fun f => gr f.history race_date) with
  | none => none
  | some topGet =>
    match fs.mapM (fun f => gr f.history race_date) with
    | none => none
    | some allRanks =>
      let topRanks : List ℚ := List.replicate 5 600 ++ topGet
      let min_rank : ℚ := topRanks.foldr min 600
      let top_average : ℚ := qDiv (qSum ((sortAsc topRanks).take 5)) 5
      let all_average : ℚ := qDiv (qSum allRanks) ((fs.length : ℤ) : ℚ)
      let value : ℚ :=
        qMul
          (if all_average < top_average ∧ min_rank < all_average then all_average
           else top_average)
          (Rat.divInt 9 10)
      let per_place : ℚ :=
        qDiv (qMul (qSub all_average value) 2) ((((fs.length : ℤ) - 1) : ℤ) : ℚ)
      some (value, per_place)

/-- The persisted `Rank.value` for a finisher with parsed place `p`:
`value + (int(place) - 1) * per_place`, truncated to an int when at most 590
and otherwise capped to 590. -/
def rankValue (value per_place : ℚ) (p : ℤ) : ℤ :=
  let rank := qAdd value (qMul (((p - 1 : ℤ) : ℚ)) per_place)
  if rank ≤ 590 then pyTrunc rank else 590

/-- The body of the per-race loop of `rankings.calculate_race_ranks`, for one
race, parameterized by the prior-rank lookup: returns the persisted `Quality`
row (if any) and the persisted `Rank` rows as `(place, value)` pairs in
finisher order.  `none` models a raised exception (a prior-rank lookup or
`int(result.place)` failing), which aborts before anything is persisted.  A
race with 2 or fewer finishers is skipped before any lookup: nothing is
persisted, nothing raises. -/
def calculate_one_race_with (gr : List RankRow → ℤ → Option ℚ) (race_date : ℤ)
    (results : List RaceEntry) : Option (Option (ℚ × ℚ) × List (String × ℤ)) :=
  let fs := race_finishers results
  if fs.length ≤ 2 then some (none, [])
  else
    match race_quality_with gr race_date fs with
    | none => none
    | some q =>
      (fs.mapM (fun f => (pyStrInt f.place).map (fun p => (f.place, rankValue q.1 q.2 p)))).map
        (fun rws => (some q, rws))

/-- The per-race body as staged, with the broken `get_rank`. -/
def calculate_one_race (race_date : ℤ) (results : List RaceEntry) :
    Option (Option (ℚ × ℚ) × List (String × ℤ)) :=
  calculate_one_race_with get_rank race_date results

/-- The per-race body with the corrected `Event` join in `get_rank`. -/
def calculate_one_race_fixed (race_date : ℤ) (results : List RaceEntry) :
    Option (Option (ℚ × ℚ) × List (String × ℤ)) :=
  calculate_one_race_with get_rank_fixed race_date results

/-- A rank history with a single 100-point row inside the example window. -/
def h100 : List RankRow := [(9800, 100)]

/-- Example race: four finishers in places 1, 2, 3 and 5, each with prior
rank 500 (one 100-valued rank row in the window). -/
def ce2_results : List RaceEntry := [⟨"1", h100⟩, ⟨"2", h100⟩, ⟨"3", h100⟩, ⟨"5", h100⟩]

/-- Example race with exactly two finishers. -/
def ce4_results : List RaceEntry := [⟨"1", []⟩, ⟨"2", []⟩]

/-- Merge of two ascending lists; helper for reasoning about `sortAsc`. -/
def mergeAsc : List ℤ → List ℤ → List ℤ
  | [], v => v
  | u, [] => u
  | a :: u, b :: v =>
    if a ≤ b then a :: mergeAsc u (b :: v)
    else b :: mergeAsc (a :: u) v
termination_by u v => u.length + v.length

/-- `data.NUMBER_RE` (`[0-9]+|dnf|dq`, case-insensitive) used with `re.match`,
i.e. anchored at the start of the string: the place starts with a digit, or
with "dnf", or with "dq". -/
def number_re_match (s : String) : Bool :=
  let l := lowerData s
  (match l with
   | c :: _ => c.isDigit
   | [] => false) || decide (l.take 3 = ['d', 'n', 'f']) || decide (l.take 2 = ['d', 'q'])

/-- Substring test on character lists (for Python `pat in text`). -/
def hasSubL (pat : List Char) : List Char → Bool
  | [] => decide (pat = [])
  | c :: rest => decide ((c :: rest).take pat.length = pat) || hasSubL pat rest

/-- Python `pat in s.lower()` for a lower-case pattern. -/
def hasSub (pat : String) (s : String) : Bool :=
  hasSubL pat.data (lowerData s)

/-- `'women' in race.name.lower()`. -/
def hasWomen (s : String) : Bool :=
  hasSub "women" s

/-- `upgrades.safe_int`: `int(value)`, and 999 when that raises. -/
def safe_int (s : String) : ℤ :=
  (pyStrInt s).getD 999

/-- An entry of one ledger (`cat_points`): `Point = namedtuple('Point',
'value,place,date')`. -/
structure Point where
  value : ℤ
  place : String
  date : ℤ
deriving DecidableEq

/-- One entry of `data.UPGRADES` for a category: either a podium-count rule or
a points rule with optional `min`, `max` and `races` keys. -/
inductive UpgradeRule where
  | podiums (n : ℤ)
  | pointsRule (minPts : Option ℤ) (maxPts : Option ℤ) (races : Option ℤ)
deriving DecidableEq

/-- `data.UPGRADES`. -/
def UPGRADES : List (String × List (ℤ × UpgradeRule)) :=
  [("cyclocross",
    [(4, .pointsRule (some 0) (some 20) none),
     (3, .pointsRule (some 0) (some 20) none),
     (2, .pointsRule (some 20) (some 20) none),
     (1, .pointsRule (some 20) (some 35) none)]),
   ("mountain_bike",
    [(3, .podiums 0), (2, .podiums 3), (1, .podiums 3), (0, .podiums 5)]),
   ("track",
    [(4, .pointsRule (some 0) none (some 4)),
     (3, .pointsRule (some 20) none (some 5)),
     (2, .pointsRule (some 25) none (some 5)),
     (1, .pointsRule (some 30) none (some 5))]),
   ("road",
    [(4, .pointsRule (some 15) (some 25) (some 10)),
     (3, .pointsRule (some 20) (some 30) (some 25)),
     (2, .pointsRule (some 25) (some 40) none),
     (1, .pointsRule (some 30) (some 50) none)])]

/-- `upgrade_discipline in UPGRADES and category in UPGRADES[upgrade_discipline]`. -/
def lookupUpgrade (disc : String) (category : ℤ) : Option UpgradeRule :=
  (List.lookup disc UPGRADES).bind (fun rules => List.lookup category rules)

/-- The ledger entries whose place is a podium finish (`safe_int(p.place) <= 3`). -/
def podium_races (cat_points : List Point) : List Point :=
  cat_points.filter (fun p => decide (safe_int p.place ≤ 3))

/-- `upgrades.can_upgrade`.  `none` models a raised exception (comparing with
a missing `min` key); the `races` key is truthy only when present and
non-zero.  An unknown discipline/category pair returns `True`. -/
def can_upgrade (disc : String) (points_sum : ℤ) (category : ℤ) (cat_points : List Point)
    (check_min_races : Bool) : Option Bool :=
  match lookupUpgrade disc category with
  | some (.podiums _) => some (decide (0 < category))
  | some (.pointsRule minPts _ races) =>
    if check_min_races &&
        (match races with
         | some r => decide (r ≠ 0) && decide (r ≤ (cat_points.length : ℤ))
         | none => false) then
      some true
    else
      match minPts with
      | some mp => some (decide (mp ≤ points_sum))
      | none => none
  | none => some true

/-- `upgrades.needs_upgrade`.  `none` models a raised exception: `max` of an
empty category set, or a missing `max` key in a points rule (as for every
`track` entry).  An unknown discipline/category pair returns `False`. -/
def needs_upgrade (disc : String) (points_sum : ℤ) (categories : List ℤ)
    (cat_points : List Point) : Option Bool :=
  match categories.max? with
  | none => none
  | some m =>
    let category := m - 1
    match lookupUpgrade disc category with
    | some (.podiums n) => some (decide (n ≤ ((podium_races cat_points).length : ℤ)))
    | some (.pointsRule _ maxPts _) =>
      if category = 0 then some false
      else
        match maxPts with
        | some mx => some (decide (mx ≤ points_sum))
        | none => none
    | none => some false

/-- Canonical (sorted, duplicate-free) list representing a Python set of
ints, e.g. `set(race.categories)`. -/
def zset (l : List ℤ) : List ℤ :=
  (sortAsc l).dedup

/-- `categories.intersection(race.categories)` on canonical set lists. -/
def zsetInter (s t : List ℤ) : List ℤ :=
  s.filter (fun x => decide (x ∈ t))

/-- The note `'{} {} EXPIRED'`. -/
def expiredNote (n : ℤ) : String :=
  toString n ++ (if n = 1 then " POINT HAS" else " POINTS HAVE") ++ " EXPIRED"

/-- The note `'UPGRADED TO {} WITH {} POINTS'`. -/
def upgradedNote (c psum : ℤ) : String :=
  "UPGRADED TO " ++ toString c ++ " WITH " ++ toString psum ++ " POINTS"

/-- The note `'DOWNGRADED TO {}'`. -/
def downgradedNote (c : ℤ) : String :=
  "DOWNGRADED TO " ++ toString c

/-- `set.add` on the note set, modelled as a duplicate-free list. -/
def noteAdd (notes : List String) (x : String) : List String :=
  if x ∈ notes then notes else notes ++ [x]

/-- Python `str.capitalize`: first character upper-cased, the rest
lower-cased. -/
def pyCapitalize (s : String) : String :=
  match s.data with
  | [] => s
  | c :: rest => String.mk (c.toUpper :: rest.map Char.toLower)

/-- Python string `<` (lexicographic by code point), on character lists. -/
def strLtB : List Char → List Char → Bool
  | [], [] => false
  | [], _ :: _ => true
  | _ :: _, [] => false
  | a :: as, b :: bs => if a < b then true else if b < a then false else strLtB as bs

/-- Python `sorted` on strings. -/
def sortStrAsc (l : List String) : List String :=
  l.insertionSort (fun a b => strLtB b.data a.data = false)

/-- `'; '.join(...)`. -/
def joinSemi : List String → String
  | [] => ""
  | h :: t => t.foldl (fun acc x => acc ++ "; " ++ x) h

/-- `'; '.join(reversed(sorted(n.capitalize() for n in upgrade_notes if n)))`. -/
def joinNotes (notes : List String) : String :=
  joinSemi ((sortStrAsc ((notes.filter (fun n => n ≠ "")).map pyCapitalize)).reverse)

/-- One result row as `sum_points` sees it: the race's id, name, category
list, date and this result's place, the pre-existing `Points` row value from
`recalculate_points` (if any), and the OBRA oracle's category for this person
and date (the external collaborator consulted when bootstrapping a rider
first seen in an elite bracket). -/
structure RInput where
  raceId : ℤ
  raceName : String
  raceCats : List ℤ
  raceDate : ℤ
  place : String
  pointsVal : Option ℤ
  obraCat : ℤ
deriving DecidableEq

/-- The per-competitor mutable state of the `sum_points` loop.  The categories
set and the note set are canonical duplicate-free lists; `upgrade_race` is
kept as its id (`None` for the initial unsaved `Race(date=1970-01-01)`, which
compares unequal to every stored race) together with its date (day 0 is
1970-01-01). -/
structure CState where
  is_woman : Bool
  cat_points : List Point
  categories : List ℤ
  prev_race_categories : List ℤ
  upgrade_notes : List String
  upgrade_race_id : Option ℤ
  upgrade_race_date : ℤ
deriving DecidableEq

/-- The reset state used when the person changes: `is_woman = False`,
`cat_points = []`, `categories = {9}`, no notes, `upgrade_race =
Race(date=date(1970, 1, 1))`. -/
def initState : CState :=
  ⟨false, [], [9], [], [], none, 0⟩

/-- A persisted `Points` row as written by `sum_points`. -/
structure PointsRow where
  value : ℤ
  needs_upgrade : Bool
  sum_value : ℤ
  sum_categories : List ℤ
  notes : String
deriving DecidableEq

/-- `points_sum()`: `sum(int(p.value) for p in cat_points)`. -/
def points_sum (l : List Point) : ℤ :=
  (l.map Point.value).sum

/-- `upgrades.expire_points`: the sum of the values of entries more than 372
days older than the race date, and the list with those entries removed. -/
def expire_points (points : List Point) (race_date : ℤ) : ℤ × List Point :=
  (((points.filter (fun p => decide (372 < race_date - p.date))).map Point.value).sum,
   points.filter (fun p => decide (race_date - p.date ≤ 372)))

/-- Lines 139-141 of `sum_points`: expire old ledger entries and note the
expired total if non-zero. -/
def expirePhase (s : CState) (d : ℤ) : CState :=
  let ep := expire_points s.cat_points d
  { s with
    cat_points := ep.2,
    upgrade_notes := if ep.1 ≠ 0 then noteAdd s.upgrade_notes (expiredNote ep.1) else s.upgrade_notes }

/-- Line 214 of `sum_points`: append this result's (possibly zeroed) points
value to the ledger with its place and date. -/
def appendPoint (s : CState) (r : RInput) (rowVal : Option ℤ) : CState :=
  { s with cat_points := s.cat_points ++ [⟨rowVal.getD 0, r.place, r.raceDate⟩] }

/-- The condition of the first transition rule of `sum_points` (line 153),
with Python's short-circuit evaluation: `none` propagates an exception from
`can_upgrade` or `needs_upgrade`. -/
def branch1cond (disc : String) (s : CState) (r : RInput) (upgrade_category psum : ℤ) :
    Option Bool :=
  if upgrade_category ∈ r.raceCats then do
    let cu ← can_upgrade disc psum upgrade_category s.cat_points false
    if cu then do
      let nu ← needs_upgrade disc psum s.categories s.cat_points
      if nu then pure (decide (s.prev_race_categories ≠ r.raceCats)) else pure false
    else pure false
  else pure false

/-- Lines 144-214 of `sum_points`: the transition rules, followed by the
ledger append.  Returns the new state and the result's effective `Points` row
value (zeroed by the below-category rule); `none` models a raised exception. -/
def transition (disc : String) (s0 : CState) (r : RInput) : Option (CState × Option ℤ) :=
  if number_re_match r.place && decide (r.raceCats ≠ []) then
    let s := if hasWomen r.raceName then { s0 with is_woman := true } else s0
    match s.categories.max? with
    | none => none
    | some m =>
      let upgrade_category := m - 1
      let psum := points_sum s.cat_points
      match branch1cond disc s r upgrade_category psum with
      | none => none
      | some b1 =>
      if b1 then
        let s1 := { s with
          upgrade_notes := noteAdd s.upgrade_notes (upgradedNote upgrade_category psum),
          cat_points := ([] : List Point),
          categories := [upgrade_category],
          upgrade_race_id := some r.raceId,
          upgrade_race_date := r.raceDate }
        some (appendPoint s1 r r.pointsVal, r.pointsVal)
      else
        match s.categories.min?, r.raceCats.min?, r.raceCats.max? with
        | some mn, some rmn, some rmx =>
          if zsetInter s.categories r.raceCats = [] ∧ rmn < mn then
            if s.categories = [9] then
              let newCats :=
                if r.raceCats = [1] ∨ r.raceCats = [1, 2] ∨ r.raceCats = [1, 2, 3] then
                  (if r.obraCat ∈ r.raceCats then [r.obraCat] else [rmx])
                else zset r.raceCats
              let s1 := { s with
                          categories := newCats,
                          upgrade_notes := noteAdd s.upgrade_notes "" }
              some (appendPoint s1 r r.pointsVal, r.pointsVal)
            else
              match can_upgrade disc psum rmx s.cat_points true with
              | none => none
              | some cu =>
              let note := (if cu then "" else "PREMATURELY ") ++ upgradedNote rmx psum
              let s1 := { s with
                          cat_points := ([] : List Point),
                          upgrade_notes := noteAdd s.upgrade_notes note,
                          categories := [rmx],
                          upgrade_race_id := some r.raceId, upgrade_race_date := r.raceDate }
              some (appendPoint s1 r r.pointsVal, r.pointsVal)
          else if zsetInter s.categories r.raceCats = [] ∧ m < rmx then
            if s.is_woman = true ∧ hasWomen r.raceName = false then
              some (appendPoint s r r.pointsVal, r.pointsVal)
            else if psum = 0 ∧ 365 < r.raceDate - s.upgrade_race_date then
              let s1 := { s with
                          cat_points := ([] : List Point),
                          upgrade_notes := noteAdd s.upgrade_notes (downgradedNote rmn),
                          categories := [rmn],
                          upgrade_race_id := some r.raceId, upgrade_race_date := r.raceDate }
              some (appendPoint s1 r r.pointsVal, r.pointsVal)
            else if r.pointsVal.isSome then
              let s1 := { s with
                          upgrade_notes := noteAdd s.upgrade_notes "NO POINTS FOR RACING BELOW CATEGORY" }
              some (appendPoint s1 r (some 0), some 0)
            else
              some (appendPoint s r r.pointsVal, r.pointsVal)
          else if (zsetInter s.categories r.raceCats).length < s.categories.length ∧
              1 < s.categories.length then
            let s1 := { s with
                        categories := zsetInter s.categories r.raceCats,
                        upgrade_notes := noteAdd s.upgrade_notes "" }
            some (appendPoint s1 r r.pointsVal, r.pointsVal)
          else
            some (appendPoint s r r.pointsVal, r.pointsVal)
        | _, _, _ => none
  else
    some (appendPoint s0 r r.pointsVal, r.pointsVal)

/-- Lines 216-233 of `sum_points`: create a zero-valued `Points` row when this
race triggered an upgrade or there are pending notes, evaluate
`needs_upgrade`, persist the row with the rolling sum, category snapshot and
joined notes, clear attached notes, and remember this race's category list. -/
def finalize (disc : String) (s : CState) (r : RInput) (rowVal0 : Option ℤ) :
    Option (CState × Option PointsRow) :=
  let rowVal := if (s.upgrade_race_id = some r.raceId ∨ s.upgrade_notes ≠ []) ∧ rowVal0 = none
                then some 0 else rowVal0
  match rowVal with
  | none => some ({ s with prev_race_categories := r.raceCats }, none)
  | some v =>
    match needs_upgrade disc (points_sum s.cat_points) s.categories s.cat_points with
    | none => none
    | some nu =>
      let notes := if nu then noteAdd s.upgrade_notes "NEEDS UPGRADE" else s.upgrade_notes
      let s1 := { s with
                  prev_race_categories := r.raceCats,
                  upgrade_notes := if notes ≠ [] then [] else notes }
      some (s1, some ⟨v, nu, points_sum s.cat_points, s.categories,
        if notes ≠ [] then joinNotes notes else ""⟩)

/-- One full iteration of the `sum_points` loop for one result of the current
person: expire, transition rules, ledger append, `Points` row bookkeeping.
`none` models a raised exception. -/
def resultStep (disc : String) (s : CState) (r : RInput) : Option (CState × Option PointsRow) :=
  match transition disc (expirePhase s r.raceDate) r with
  | none => none
  | some t => finalize disc t.1 r t.2

/-- The `sum_points` loop over one person's results in order, from a given
state, returning the final state and the persisted `Points` row (if any) of
each result. -/
def runResults (disc : String) : CState → List RInput → Option (CState × List (Option PointsRow))
  | s, [] => some (s, [])
  | s, r :: rs =>
    match resultStep disc s r with
    | none => none
    | some out =>
      match runResults disc out.1 rs with
      | none => none
      | some rest => some (rest.1, out.2 :: rest.2)

/-- Does an `UPGRADES` lookup result carry a podium-based rule? -/
def isPodiumRule : Option UpgradeRule → Bool
  | some (.podiums _) => true
  | _ => false

/-- One `{min, max, points}` tier of a points schedule. -/
structure FieldTier where
  min : ℤ
  max : ℤ
  points : List ℤ

/-- A points schedule: tiers per discipline and field. -/
abbrev Schedule := List (String × List (String × List FieldTier))

/-- `data.SCHEDULE_2019_DATE` (2019-08-31) as days since 1970-01-01. -/
def SCHEDULE_2019_DATE : ℤ := 18139

/-- `data.SCHEDULE_2019`. -/
def SCHEDULE_2019 : Schedule :=
  [("cyclocross",
    [("open",
      [⟨10, 25, [3, 2, 1]⟩, ⟨26, 40, [5, 4, 3, 2, 1]⟩, ⟨41, 75, [7, 6, 5, 4, 3, 2, 1]⟩,
       ⟨76, 999, [10, 8, 7, 5, 4, 3, 2, 1]⟩]),
     ("women",
      [⟨6, 15, [3, 2, 1]⟩, ⟨16, 25, [5, 4, 3, 2, 1]⟩, ⟨26, 60, [7, 6, 5, 4, 3, 2, 1]⟩,
       ⟨61, 999, [10, 8, 7, 5, 4, 3, 2, 1]⟩])]),
   ("circuit",
    [("open",
      [⟨5, 10, [3, 2, 1]⟩, ⟨11, 20, [4, 3, 2, 1]⟩, ⟨21, 49, [5, 4, 3, 2, 1]⟩,
       ⟨50, 999, [7, 5, 4, 3, 2, 1]⟩])]),
   ("criterium",
    [("open",
      [⟨5, 10, [3, 2, 1]⟩, ⟨11, 20, [4, 3, 2, 1]⟩, ⟨21, 49, [5, 4, 3, 2, 1]⟩,
       ⟨50, 999, [7, 5, 4, 3, 2, 1]⟩])]),
   ("road",
    [("open",
      [⟨5, 10, [3, 2, 1]⟩, ⟨11, 20, [7, 5, 4, 3, 2, 1]⟩, ⟨21, 49, [8, 6, 5, 4, 3, 2, 1]⟩,
       ⟨50, 999, [10, 8, 7, 6, 5, 4, 3, 2, 1]⟩])]),
   ("tour",
    [("open",
      [⟨10, 19, [5, 3, 2, 1]⟩, ⟨20, 35, [7, 5, 3, 2, 1]⟩,
       ⟨36, 49, [10, 8, 6, 5, 4, 3, 2, 1]⟩,
       ⟨50, 999, [20, 18, 16, 14, 12, 10, 9, 8, 7, 6, 5, 4, 3, 2, 1]⟩])])]

/-- `data.SCHEDULE_2018`. -/
def SCHEDULE_2018 : Schedule :=
  [("cyclocross",
    [("open",
      [⟨10, 15, [3, 2, 1]⟩, ⟨16, 25, [5, 4, 3, 2, 1]⟩, ⟨26, 60, [7, 6, 5, 4, 3, 2, 1]⟩,
       ⟨61, 999, [10, 8, 7, 5, 4, 3, 2, 1]⟩]),
     ("women",
      [⟨6, 10, [3, 2, 1]⟩, ⟨11, 20, [5, 4, 3, 2, 1]⟩, ⟨21, 50, [7, 6, 5, 4, 3, 2, 1]⟩,
       ⟨51, 999, [10, 8, 7, 5, 4, 3, 2, 1]⟩])]),
   ("circuit",
    [("open",
      [⟨5, 10, [3, 2, 1]⟩, ⟨11, 20, [4, 3, 2, 1]⟩, ⟨21, 49, [5, 4, 3, 2, 1]⟩,
       ⟨50, 999, [7, 5, 4, 3, 2, 1]⟩])]),
   ("criterium",
    [("open",
      [⟨5, 10, [3, 2, 1]⟩, ⟨11, 20, [4, 3, 2, 1]⟩, ⟨21, 49, [5, 4, 3, 2, 1]⟩,
       ⟨50, 999, [7, 5, 4, 3, 2, 1]⟩])]),
   ("road",
    [("open",
      [⟨5, 10, [3, 2, 1]⟩, ⟨11, 20, [7, 5, 4, 3, 2, 1]⟩, ⟨21, 49, [8, 6, 5, 4, 3, 2, 1]⟩,
       ⟨50, 999, [10, 8, 7, 6, 5, 4, 3, 2, 1]⟩])]),
   ("tour",
    [("open",
      [⟨10, 19, [5, 3, 2, 1]⟩, ⟨20, 35, [7, 5, 3, 2, 1]⟩,
       ⟨36, 49, [10, 8, 6, 5, 4, 3, 2, 1]⟩,
       ⟨50, 999, [20, 18, 16, 14, 12, 10, 9, 8, 7, 6, 5, 4, 3, 2, 1]⟩])])]

/-- `re.search('women|junior', race.name, re.I)`. -/
def searchWomenJunior (name : String) : Bool :=
  hasSub "women" name || hasSub "junior" name

/-- The tier loop of `get_points_schedule`: the points of the first tier whose
`[min, max]` range contains the starter count, else `[]`. -/
def findTier : List FieldTier → ℤ → List ℤ
  | [], _ => []
  | t :: ts, n => if t.min ≤ n ∧ n ≤ t.max then t.points else findTier ts n

/-- `upgrades.get_points_schedule`: pick the schedule generation in force on
the race date, the women's table for race names matching `women|junior` (with
fallback to the open table), then the first tier containing the starter
count.  Unknown discipline gives `[]`. -/
def get_points_schedule (event_discipline : String) (raceName : String) (raceDate : ℤ)
    (starters : ℤ) : List ℤ :=
  let field := if searchWomenJunior raceName then "women" else "open"
  let schedule := if SCHEDULE_2019_DATE ≤ raceDate then SCHEDULE_2019 else SCHEDULE_2018
  match List.lookup event_discipline schedule with
  | some disc_tables =>
    let tiers :=
      match List.lookup field disc_tables with
      | some t => t
      | none => (List.lookup "open" disc_tables).getD []
    findTier tiers starters
  | none => []

/-- C3 failing input, first result: a rider first seen in a "1/3" race
(categories `[1, 3]`, as produced by `get_categories` for such a name). -/
def c3r1 : RInput := ⟨1, "Mens 1/3", [1, 3], 10000, "1", none, 0⟩

/-- C3 failing input, second result: the same rider in a category-2 race. -/
def c3r2 : RInput := ⟨2, "Mens 2", [2], 10010, "4", none, 0⟩

/-- C5 counterexample input: a DNF place in a categorised race. -/
def c5r : RInput := ⟨5, "Mens 3/4", [3, 4], 10000, "dnf", none, 0⟩

/-- C5 witness input: a DNS place (which `NUMBER_RE` does not match), with an
existing 5-point `Points` row. -/
def c5w : RInput := ⟨6, "Mens 3", [3], 10000, "dns", some 5, 0⟩

/-- The state and row produced by processing `c5w` from the initial state. -/
def c5w_out : CState × Option PointsRow :=
  (⟨false, [⟨5, "dns", 10000⟩], [9], [3], [], none, 0⟩, some ⟨5, false, 5, [9], ""⟩)

/-- C6 witness state: a category-3 rider with one zero-valued ledger entry and
no category change on record. -/
def c6s : CState := ⟨false, [⟨0, "5", 9990⟩], [3], [3], [], none, 0⟩

/-- C6 witness input: a race below the rider's category. -/
def c6r : RInput := ⟨7, "Mens 4", [4], 10000, "3", none, 0⟩

/-- C6 counterexample inputs: a bootstrap result then a below-category race. -/
def c6r1 : RInput := ⟨8, "Mens 3", [3], 10000, "5", none, 0⟩

/-- Second C6 counterexample input (10 days later, ledger entry not expired). -/
def c6r2 : RInput := ⟨9, "Mens 4", [4], 10010, "3", none, 0⟩

/-- C8 witness state: a ledger with a 7-point entry 400 days before the next
race and a 3-point entry 370 days before it. -/
def c8s : CState := ⟨false, [⟨7, "1", 10000⟩, ⟨3, "2", 10030⟩], [3], [3], [], none, 0⟩

/-- C8 witness input: a category-3 race on day 10400. -/
def c8r : RInput := ⟨10, "Mens 3", [3], 10400, "2", none, 0⟩

/-- The state and row produced by processing `c8r` from `c8s`. -/
def c8out : CState × Option PointsRow :=
  (⟨false, [⟨3, "2", 10030⟩, ⟨0, "2", 10400⟩], [3], [3], [], none, 0⟩,
   some ⟨0, false, 3, [3], "7 points have expired"⟩)

end Obra

namespace Obra

theorem mergeAsc_nil_left (v : List ℤ) : mergeAsc [] v = v := by
  cases v <;> simp [mergeAsc]

theorem mergeAsc_nil_right (u : List ℤ) : mergeAsc u [] = u := by
  cases u <;> simp [mergeAsc]

theorem mergeAsc_cons_cons (a b : ℤ) (u v : List ℤ) :
    mergeAsc (a :: u) (b :: v) =
      if a ≤ b then a :: mergeAsc u (b :: v) else b :: mergeAsc (a :: u) v := by
  rw [mergeAsc]

theorem mergeAsc_perm : ∀ (u v : List ℤ), List.Perm (mergeAsc u v) (u ++ v) := by
  intro u
  induction u with
  | nil => intro v; simp [mergeAsc_nil_left]
  | cons a u ihu =>
    intro v
    induction v with
    | nil => simp [mergeAsc_nil_right]
    | cons b v ihv =>
      rw [mergeAsc_cons_cons]
      split
      · exact (ihu (b :: v)).cons a
      · refine List.Perm.trans (ihv.cons b) ?_
        simpa using (@List.perm_middle _ b (a :: u) v).symm

theorem mergeAsc_sorted : ∀ (u v : List ℤ), u.Sorted (· ≤ ·) → v.Sorted (· ≤ ·) →
    (mergeAsc u v).Sorted (· ≤ ·) := by
  intro u
  induction u with
  | nil => intro v _ hv; simpa [mergeAsc_nil_left] using hv
  | cons a u ihu =>
    intro v hu hv
    induction v with
    | nil => simpa [mergeAsc_nil_right] using hu
    | cons b v ihv =>
      rw [mergeAsc_cons_cons]
      split
      · rename_i hab
        have hrest : (mergeAsc u (b :: v)).Sorted (· ≤ ·) :=
          ihu (b :: v) (List.Sorted.of_cons hu) hv
        refine List.sorted_cons.mpr ⟨?_, hrest⟩
        intro x hx
        have hx' : x ∈ u ++ b :: v := (mergeAsc_perm u (b :: v)).mem_iff.mp hx
        rcases List.mem_append.mp hx' with h | h
        · exact List.rel_of_sorted_cons hu x h
        · rcases List.mem_cons.mp h with rfl | h
          · exact hab
          · exact le_trans hab (List.rel_of_sorted_cons hv x h)
      · rename_i hab
        have hba : b ≤ a := le_of_not_le hab
        have hrest : (mergeAsc (a :: u) v).Sorted (· ≤ ·) :=
          ihv (List.Sorted.of_cons hv)
        refine List.sorted_cons.mpr ⟨?_, hrest⟩
        intro x hx
        have hx' : x ∈ a :: u ++ v := (mergeAsc_perm (a :: u) v).mem_iff.mp hx
        rcases List.mem_append.mp hx' with h | h
        · rcases List.mem_cons.mp h with rfl | h
          · exact hba
          · exact le_trans hba (List.rel_of_sorted_cons hu x h)
        · exact List.rel_of_sorted_cons hv x h

theorem take_mergeAsc : ∀ (k : ℕ) (u v : List ℤ),
    (mergeAsc u v).take k = (mergeAsc (u.take k) (v.take k)).take k := by
  intro k
  induction k with
  | zero => intro u v; simp
  | succ j ih =>
    intro u v
    cases u with
    | nil => simp [mergeAsc_nil_left, List.take_take]
    | cons a u =>
      cases v with
      | nil => simp [mergeAsc_nil_right, List.take_take]
      | cons b v =>
        simp only [List.take_succ_cons]
        rw [mergeAsc_cons_cons, mergeAsc_cons_cons]
        split
        · rw [List.take_succ_cons, List.take_succ_cons]
          congr 1
          cases j with
          | zero => simp
          | succ i =>
            rw [ih u (b :: v), ih (u.take (i + 1)) (b :: v.take (i + 1))]
            simp [List.take_take, show min i (i + 1) = i from by omega]
        · rw [List.take_succ_cons, List.take_succ_cons]
          congr 1
          cases j with
          | zero => simp
          | succ i =>
            rw [ih (a :: u) v, ih (a :: u.take (i + 1)) (v.take (i + 1))]
            simp [List.take_take, show min i (i + 1) = i from by omega]

theorem sortAsc_perm (l : List ℤ) : List.Perm (sortAsc l) l :=
  List.perm_insertionSort _ l

theorem sortAsc_sorted (l : List ℤ) : (sortAsc l).Sorted (· ≤ ·) :=
  List.sorted_insertionSort _ l

theorem sortAsc_of_sorted {l : List ℤ} (h : l.Sorted (· ≤ ·)) : sortAsc l = l :=
  List.eq_of_perm_of_sorted (sortAsc_perm l) (sortAsc_sorted l) h

theorem sorted_take {l : List ℤ} (h : l.Sorted (· ≤ ·)) (k : ℕ) :
    (l.take k).Sorted (· ≤ ·) :=
  h.sublist (List.take_sublist k l)

theorem sortAsc_append (A B : List ℤ) :
    sortAsc (A ++ B) = mergeAsc (sortAsc A) (sortAsc B) := by
  refine List.eq_of_perm_of_sorted ?_ (sortAsc_sorted _)
    (mergeAsc_sorted _ _ (sortAsc_sorted A) (sortAsc_sorted B))
  refine (sortAsc_perm (A ++ B)).trans ?_
  refine List.Perm.trans ?_ (mergeAsc_perm (sortAsc A) (sortAsc B)).symm
  exact ((sortAsc_perm A).symm.append (sortAsc_perm B).symm)

/-- Taking the `k` smallest of `A ++ (the k smallest of B)` is the same as
taking the `k` smallest of `A ++ B`: pre-selecting the best `k` of `B` (the
SQL `ORDER BY ... LIMIT k`) loses nothing. -/
theorem take_sortAsc_append_take (k : ℕ) (A B : List ℤ) :
    (sortAsc (A ++ (sortAsc B).take k)).take k = (sortAsc (A ++ B)).take k := by
  rw [sortAsc_append, sortAsc_append,
    sortAsc_of_sorted (sorted_take (sortAsc_sorted B) k),
    take_mergeAsc k (sortAsc A) ((sortAsc B).take k),
    take_mergeAsc k (sortAsc A) (sortAsc B), List.take_take, Nat.min_self]

theorem get_rank_none (history : List RankRow) (end_date : ℤ) :
    get_rank history end_date = none := by
  unfold get_rank
  rw [if_neg (by decide)]

theorem get_rank_fixed_eq (history : List RankRow) (end_date : ℤ) :
    get_rank_fixed history end_date = some (priorRankSpec history end_date) := by
  unfold get_rank_fixed
  rw [if_pos (by decide)]
  refine congrArg some ?_
  simp only [get_rank_value, priorRankSpec]
  rw [take_sortAsc_append_take 5]

/-- C1: `get_rank` never returns a value — its query joins `Event` with
`src=Result`, and no foreign key relates `Result` and `Event` (the FK path
goes through `Race`), so peewee raises `ValueError` at query construction on
every call.  With the corrected join (`src=Race`, as written everywhere else
in the codebase) it would return exactly the spec's `priorRank` — the mean of
the 5 smallest among five default 600s and ALL qualifying rank values, the
`LIMIT 5` pre-selection losing nothing — deterministically. -/
theorem c1_get_rank_raises :
    (∀ (history : List RankRow) (end_date : ℤ), get_rank history end_date = none) ∧
    (∀ (history : List RankRow) (end_date : ℤ),
      get_rank_fixed history end_date = some (priorRankSpec history end_date)) ∧
    (∀ (h₁ h₂ : List RankRow) (e₁ e₂ : ℤ), h₁ = h₂ → e₁ = e₂ →
      get_rank_fixed h₁ e₁ = get_rank_fixed h₂ e₂) := by
  refine ⟨get_rank_none, get_rank_fixed_eq, ?_⟩
  intro h₁ h₂ e₁ e₂ hh he
  rw [hh, he]

theorem floor_q590 : ⌊(590 : ℚ)⌋ = 590 := by
  norm_num

theorem cap_eq_min (v : ℚ) : (if v ≤ 590 then pyTrunc v else 590) = min 590 (pyTrunc v) := by
  split
  · rename_i h
    refine (min_eq_right ?_).symm
    unfold pyTrunc
    split
    · calc ⌊v⌋ ≤ ⌊(590 : ℚ)⌋ := Int.floor_le_floor h
        _ = 590 := floor_q590
    · rename_i h0
      have hv : (0 : ℚ) ≤ -v := by linarith [lt_of_not_le h0]
      have : (0 : ℤ) ≤ ⌊-v⌋ := Int.floor_nonneg.mpr hv
      omega
  · rename_i h
    have hv : (590 : ℚ) < v := lt_of_not_le h
    have h0 : (0 : ℚ) ≤ v := by linarith
    refine (min_eq_left ?_).symm
    unfold pyTrunc
    rw [if_pos h0]
    calc (590 : ℤ) = ⌊(590 : ℚ)⌋ := floor_q590.symm
      _ ≤ ⌊v⌋ := Int.floor_le_floor hv.le

theorem rankValue_eq_min (value per_place : ℚ) (p : ℤ) :
    rankValue value per_place p =
      min 590 (pyTrunc (qAdd value (qMul (((p - 1 : ℤ) : ℚ)) per_place))) := by
  unfold rankValue
  exact cap_eq_min _

theorem mapM_rank_rows (q1 q2 : ℚ) :
    ∀ (l : List RaceEntry), (∀ f ∈ l, (pyStrInt f.place).isSome) →
      l.mapM (fun f => (pyStrInt f.place).map (fun p => (f.place, rankValue q1 q2 p))) =
        some (l.map (fun f => (f.place, rankValue q1 q2 ((pyStrInt f.place).getD 0)))) := by
  intro l
  induction l with
  | nil => intro _; rfl
  | cons a l ih =>
    intro h
    have ha := h a (List.mem_cons_self a l)
    obtain ⟨p, hp⟩ := Option.isSome_iff_exists.mp ha
    rw [List.mapM_cons, ih (fun f hf => h f (List.mem_cons_of_mem a hf))]
    simp [hp]

/-- C2 (amended): for a race with more than two finishers, the pass as staged
persists NOTHING: the per-finisher prior-rank lookups of line 86 raise (the
broken `Event` join in `get_rank`) before the Quality row (line 100) or any
Rank row (line 105) is created.  With the join corrected, exactly one Rank
row per finisher and none for non-finishers would be persisted, the finisher
whose place parses to `p` (NOT the zero-based finisher index) receiving the
integer truncation of `qualityValue + (p - 1) × pointsPerPlace`, capped at
590. -/
theorem c2_rank_rows_amended (d : ℤ) (rs : List RaceEntry)
    (h2 : 2 < (race_finishers rs).length)
    (hp : ∀ f ∈ race_finishers rs, (pyStrInt f.place).isSome) :
    calculate_one_race d rs = none ∧
    (∀ q, race_quality_with get_rank_fixed d (race_finishers rs) = some q →
      calculate_one_race_fixed d rs =
        some (some q, (race_finishers rs).map (fun f => (f.place,
          min 590 (pyTrunc (qAdd q.1
            (qMul ((((pyStrInt f.place).getD 0) - 1 : ℤ) : ℚ) q.2))))))) := by
  constructor
  · unfold calculate_one_race calculate_one_race_with
    rw [if_neg (by omega)]
    have hm : ((race_finishers rs).take 10).mapM (fun f => get_rank f.history d) = none := by
      cases hfs : race_finishers rs with
      | nil => rw [hfs] at h2; simp at h2
      | cons a l =>
        rw [show (10 : ℕ) = 9 + 1 from rfl, List.take_succ_cons, List.mapM_cons, get_rank_none]
        rfl
    have hq : race_quality_with get_rank d (race_finishers rs) = none := by
      unfold race_quality_with
      rw [hm]
    rw [hq]
  · intro q hq
    unfold calculate_one_race_fixed calculate_one_race_with
    rw [if_neg (by omega), hq]
    simp only [mapM_rank_rows _ _ _ hp, Option.map_some]
    refine congrArg some (congrArg _ ?_)
    refine List.map_congr_left ?_
    intro f _
    rw [rankValue_eq_min]

/-- C2 witness: the amended statement applied to the concrete four-finisher
race `ce2_results`: nothing persisted as staged; under the corrected join,
one row per finisher with the place-based truncated-and-capped value. -/
theorem c2_witness :
    calculate_one_race 10000 ce2_results = none ∧
    calculate_one_race_fixed 10000 ce2_results =
      some (some ((468 : ℚ), Rat.divInt 64 3), (race_finishers ce2_results).map (fun f =>
        (f.place, min 590 (pyTrunc (qAdd (468 : ℚ)
          (qMul ((((pyStrInt f.place).getD 0) - 1 : ℤ) : ℚ) (Rat.divInt 64 3))))))) :=
  ⟨(c2_rank_rows_amended 10000 ce2_results (by decide) (by decide)).1,
   (c2_rank_rows_amended 10000 ce2_results (by decide) (by decide)).2
     (468, Rat.divInt 64 3) (by decide)⟩

/-- C2 counterexample: the four-finisher race with places 1, 2, 3, 5 (prior
ranks 500 each) is rated, yet the staged code persists NO Rank rows at all
(the prior-rank query raises) — not one per finisher as claimed; and even
with the join corrected the persisted values would be `468, 489, 510, 553`,
where the claim's formula `min(590, value + i × perPlace)` at zero-based
index 3 gives `532 ≠ 553` (the code uses `place - 1 = 4`, truncated). -/
theorem c2_counterexample :
    2 < (race_finishers ce2_results).length ∧
    calculate_one_race 10000 ce2_results = none ∧
    (none : Option (Option (ℚ × ℚ) × List (String × ℤ))) ≠
      some (some (468, Rat.divInt 64 3), [("1", 468), ("2", 489), ("3", 510), ("5", 553)]) ∧
    calculate_one_race_fixed 10000 ce2_results =
      some (some (468, Rat.divInt 64 3), [("1", 468), ("2", 489), ("3", 510), ("5", 553)]) ∧
    min (590 : ℚ) (qAdd 468 (qMul 3 (Rat.divInt 64 3))) = 532 ∧
    ((553 : ℤ) : ℚ) ≠ 532 :=
  ⟨by decide, by decide, by decide, by decide, by decide, by decide⟩

/-- C4 (amended): a race with at most two finishers is skipped entirely: no
Quality row is persisted (rather than a `(0, 0)` row) and no Rank rows are
produced. -/
theorem c4_unrated_race_amended (d : ℤ) (rs : List RaceEntry)
    (h : (race_finishers rs).length ≤ 2) :
    calculate_one_race d rs = some (none, []) := by
  unfold calculate_one_race calculate_one_race_with
  rw [if_pos h]

/-- C4 witness: the amended statement applied to the two-finisher race. -/
theorem c4_witness : calculate_one_race 10000 ce4_results = some (none, []) :=
  c4_unrated_race_amended 10000 ce4_results (by decide)

/-- C4 counterexample: for the concrete two-finisher race the pass persists no
Quality row at all, not a Quality row equal to `(0, 0)` as claimed. -/
theorem c4_counterexample :
    (calculate_one_race 10000 ce4_results).map Prod.fst = some none ∧
    (some none : Option (Option (ℚ × ℚ))) ≠ some (some (0, 0)) := by
  decide

/-- C3: the never-empty categories invariant FAILS on the code.  A rider
bootstrapped into categories `{1, 3}` (from a "1/3" race) who then races a
category-2 field reaches the partial-refinement rule with an empty
intersection (the code checks only `|categories ∩ R| < |categories|`, not
non-emptiness), which empties the category set; the same iteration then
raises `ValueError` (`max()` of an empty set) inside `needs_upgrade`. -/
theorem c3_categories_become_empty :
    (resultStep "cyclocross" initState c3r1).map (fun o => o.1.categories) = some [1, 3] ∧
    ((resultStep "cyclocross" initState c3r1).bind (fun o =>
      transition "cyclocross" (expirePhase o.1 c3r2.raceDate) c3r2)).map
        (fun t => t.1.categories) = some [] ∧
    runResults "cyclocross" initState [c3r1, c3r2] = none := by
  decide

theorem expirePhase_categories (s : CState) (d : ℤ) :
    (expirePhase s d).categories = s.categories := rfl

theorem appendPoint_categories (s : CState) (r : RInput) (v : Option ℤ) :
    (appendPoint s r v).categories = s.categories := rfl

theorem transition_guard_false {disc : String} {s : CState} {r : RInput}
    (h : number_re_match r.place = false ∨ r.raceCats = []) :
    transition disc s r = some (appendPoint s r r.pointsVal, r.pointsVal) := by
  unfold transition
  have hc : (number_re_match r.place && decide (r.raceCats ≠ [])) = false := by
    rcases h with h | h <;> simp [h]
  rw [hc]
  simp

theorem finalize_some {disc : String} {s : CState} {r : RInput} {rv : Option ℤ}
    {out : CState × Option PointsRow} (h : finalize disc s r rv = some out) :
    out.1.categories = s.categories ∧ out.1.cat_points = s.cat_points ∧
    (∀ v, rv = some v → ∃ row, out.2 = some row ∧ row.value = v) := by
  unfold finalize at h
  by_cases hc : (s.upgrade_race_id = some r.raceId ∨ s.upgrade_notes ≠ []) ∧ rv = none
  · rw [if_pos hc] at h
    cases hnu : needs_upgrade disc (points_sum s.cat_points) s.categories s.cat_points with
    | none => rw [hnu] at h; exact absurd h (by simp)
    | some nu =>
      rw [hnu] at h
      obtain rfl := Option.some.inj h
      refine ⟨rfl, rfl, ?_⟩
      intro v hv
      rw [hc.2] at hv
      cases hv
  · rw [if_neg hc] at h
    cases rv with
    | none =>
      obtain rfl := Option.some.inj h
      exact ⟨rfl, rfl, fun v hv => by cases hv⟩
    | some v0 =>
      cases hnu : needs_upgrade disc (points_sum s.cat_points) s.categories s.cat_points with
      | none => rw [hnu] at h; exact absurd h (by simp)
      | some nu =>
        rw [hnu] at h
        obtain rfl := Option.some.inj h
        refine ⟨rfl, rfl, ?_⟩
        intro v hv
        obtain rfl := Option.some.inj hv
        exact ⟨_, rfl, rfl⟩

/-- C5 (amended): a result whose place does not match `NUMBER_RE` (a digit,
"dnf" or "dq" prefix) — e.g. a DNS marker — or whose race has no categories
skips the whole transition block: the categories set is unchanged and the
result's awarded points are not zeroed.  (DNF and DQ markers DO match
`NUMBER_RE` and undergo transition evaluation; see the counterexample.) -/
theorem c5_skip_markers_amended (disc : String) (s : CState) (r : RInput)
    (out : CState × Option PointsRow)
    (hguard : number_re_match r.place = false ∨ r.raceCats = [])
    (hstep : resultStep disc s r = some out) :
    out.1.categories = s.categories ∧
    (r.pointsVal.isSome → out.2.map PointsRow.value = r.pointsVal) := by
  unfold resultStep at hstep
  rw [transition_guard_false hguard] at hstep
  obtain ⟨hcat, _, hval⟩ := finalize_some hstep
  constructor
  · rw [hcat, appendPoint_categories, expirePhase_categories]
  · intro hv
    obtain ⟨v, hv'⟩ := Option.isSome_iff_exists.mp hv
    obtain ⟨row, hrow, hres⟩ := hval v hv'
    rw [hrow, hv']
    simp [hres]

/-- C5 witness: a DNS result with an existing 5-point row leaves categories
and the awarded points untouched. -/
theorem c5_witness :
    resultStep "cyclocross" initState c5w = some c5w_out ∧
    c5w_out.1.categories = initState.categories ∧
    c5w_out.2.map PointsRow.value = c5w.pointsVal :=
  ⟨by decide,
   (c5_skip_markers_amended "cyclocross" initState c5w c5w_out (Or.inl (by decide)) (by decide)).1,
   (c5_skip_markers_amended "cyclocross" initState c5w c5w_out (Or.inl (by decide)) (by decide)).2
     (by decide)⟩

/-- C5 counterexample: `NUMBER_RE` (`[0-9]+|dnf|dq`) matches the place "dnf",
so a DNF result IS transition-evaluated: from the sentinel state it adopts the
race's categories `{3, 4}`, contradicting the claim that DNF markers leave the
categories set unchanged. -/
theorem c5_counterexample :
    number_re_match "dnf" = true ∧
    (resultStep "cyclocross" initState c5r).map (fun o => o.1.categories) = some [3, 4] ∧
    (some [3, 4] : Option (List ℤ)) ≠ some initState.categories := by
  decide

/-- C7 (amended): when the upgrade target category `max(categories) - 1` is 0
and the discipline's rule for category 0 is NOT podium-based (it is absent for
cyclocross, track and road), `needs_upgrade` returns `False` regardless of the
points sum and ledger.  (For `mountain_bike`, category 0 has a podium rule and
CAN fire; see the counterexample.) -/
theorem c7_top_tier_amended (disc : String) (psum : ℤ) (categories : List ℤ)
    (cat_points : List Point)
    (hmax : categories.max? = some 1)
    (hrule : isPodiumRule (lookupUpgrade disc 0) = false) :
    needs_upgrade disc psum categories cat_points = some false := by
  unfold needs_upgrade
  rw [hmax]
  dsimp only
  rw [show (1 : ℤ) - 1 = 0 from by norm_num]
  cases hl : lookupUpgrade disc 0 with
  | none => rfl
  | some rule =>
    cases rule with
    | podiums n => rw [hl] at hrule; exact absurd hrule (by simp [isPodiumRule])
    | pointsRule a b c => simp

/-- C7 witness: a category-1 cyclocross rider with a huge rolling sum and many
podiums still gets `needs_upgrade = False` for target category 0. -/
theorem c7_witness :
    needs_upgrade "cyclocross" 1000 [1] (List.replicate 9 ⟨9, "1", 10000⟩) = some false ∧
    ([1] : List ℤ).max? = some 1 ∧
    isPodiumRule (lookupUpgrade "cyclocross" 0) = false :=
  ⟨c7_top_tier_amended "cyclocross" 1000 [1] (List.replicate 9 ⟨9, "1", 10000⟩)
     (by decide) (by decide), by decide, by decide⟩

/-- C7 counterexample: for `mountain_bike`, category 0 has the podium rule
`{'podiums': 5}`, and a category-1 rider with five podium ledger entries gets
`needs_upgrade = True` — category 0 does fire there, contrary to the claim. -/
theorem c7_counterexample :
    needs_upgrade "mountain_bike" 0 [1] (List.replicate 5 ⟨0, "1", 10000⟩) = some true ∧
    (some true : Option Bool) ≠ some false := by
  decide

/-- C9: for a cyclocross race whose name matches neither "women" nor "junior",
dated on or after 2019-08-31, with 30 starters, the schedule lookup returns
`[5, 4, 3, 2, 1]` (the first 2019 open tier whose range contains 30). -/
theorem c9_schedule_lookup (raceName : String) (raceDate : ℤ)
    (hw : hasSub "women" raceName = false) (hj : hasSub "junior" raceName = false)
    (hd : SCHEDULE_2019_DATE ≤ raceDate) :
    get_points_schedule "cyclocross" raceName raceDate 30 = [5, 4, 3, 2, 1] := by
  unfold get_points_schedule
  have hf : searchWomenJunior raceName = false := by
    unfold searchWomenJunior; rw [hw, hj]; rfl
  simp only [hf, if_pos hd]
  decide

/-- C9 witness: the lookup at a concrete open race name on the cutover date. -/
theorem c9_witness :
    get_points_schedule "cyclocross" "Cat 3 Men" 18139 30 = [5, 4, 3, 2, 1] :=
  c9_schedule_lookup "Cat 3 Men" 18139 (by decide) (by decide) (by decide)

/-- C10: a discipline/category pair absent from `UPGRADES` makes `can_upgrade`
return `True` for every points sum, ledger and flag, while `needs_upgrade`
returns `False` in the same situation. -/
theorem c10_unknown_config_permissive (disc : String) (category psum : ℤ)
    (cat_points : List Point) (check : Bool) (categories : List ℤ)
    (hlookup : lookupUpgrade disc category = none)
    (hmax : categories.max? = some (category + 1)) :
    can_upgrade disc psum category cat_points check = some true ∧
    needs_upgrade disc psum categories cat_points = some false := by
  constructor
  · unfold can_upgrade; rw [hlookup]
  · unfold needs_upgrade
    rw [hmax]
    dsimp only
    rw [show category + 1 - 1 = category from by ring, hlookup]

/-- C6 (amended): below-category racing (race categories disjoint from the
rider's, `max(categories) < max(R)`, not a forced upgrade, no cross-gender
exemption, eligible-upgrade rule not firing): if the rolling POINT SUM is zero
(not: the ledger is empty — zero-valued entries are allowed) and more than 365
days have passed since the last category change, the rider is downgraded to
`min(R)` with a cleared ledger and a "DOWNGRADED TO" note; otherwise the
result's points are zeroed with a below-category note ONLY when a Points row
exists, and nothing happens when it does not. -/
theorem c6_below_category_amended (disc : String) (s : CState) (r : RInput)
    (m mn rmn rmx : ℤ)
    (hguard : number_re_match r.place = true) (hcats : r.raceCats ≠ [])
    (hwname : hasWomen r.raceName = false)
    (hiw : s.is_woman = false)
    (hmax : s.categories.max? = some m) (hmin : s.categories.min? = some mn)
    (hrmn : r.raceCats.min? = some rmn) (hrmx : r.raceCats.max? = some rmx)
    (hb1 : branch1cond disc s r (m - 1) (points_sum s.cat_points) = some false)
    (hdisj : zsetInter s.categories r.raceCats = [])
    (hnotup : ¬ rmn < mn)
    (hbelow : m < rmx) :
    transition disc s r =
      (if points_sum s.cat_points = 0 ∧ 365 < r.raceDate - s.upgrade_race_date then
        some (appendPoint { s with
          cat_points := ([] : List Point),
          upgrade_notes := noteAdd s.upgrade_notes (downgradedNote rmn),
          categories := [rmn],
          upgrade_race_id := some r.raceId, upgrade_race_date := r.raceDate } r r.pointsVal,
          r.pointsVal)
      else if r.pointsVal.isSome then
        some (appendPoint { s with
          upgrade_notes := noteAdd s.upgrade_notes "NO POINTS FOR RACING BELOW CATEGORY" } r
          (some 0), some 0)
      else
        some (appendPoint s r r.pointsVal, r.pointsVal)) := by
  unfold transition
  rw [hguard, decide_eq_true hcats]
  rw [show (true && true) = true from rfl, if_pos rfl]
  rw [hwname, if_neg Bool.false_ne_true]
  dsimp only
  rw [hmax]
  dsimp only
  rw [hb1]
  dsimp only
  rw [if_neg Bool.false_ne_true]
  rw [hmin, hrmn, hrmx]
  dsimp only
  rw [if_neg (fun hcon => hnotup hcon.2), if_pos ⟨hdisj, hbelow⟩,
    if_neg (fun hcon => Bool.false_ne_true (hiw ▸ hcon.1))]

/-- C6 witness: a category-3 rider with one zero-valued (non-empty!) ledger
entry and no recorded category change, racing a category-4 field, is
downgraded to category 4. -/
theorem c6_witness :
    transition "cyclocross" c6s c6r =
      some (appendPoint { c6s with
        cat_points := ([] : List Point),
        upgrade_notes := noteAdd c6s.upgrade_notes (downgradedNote 4),
        categories := [4],
        upgrade_race_id := some c6r.raceId, upgrade_race_date := c6r.raceDate } c6r c6r.pointsVal,
        c6r.pointsVal) := by
  rw [c6_below_category_amended "cyclocross" c6s c6r 3 3 4 4 (by decide) (by decide) (by decide)
    (by decide) (by decide) (by decide) (by decide) (by decide) (by decide) (by decide)
    (by decide) (by decide)]
  decide

/-- C6 counterexample: after a bootstrap result, the rider's ledger holds one
zero-valued entry (it is NOT empty), yet the next below-category result still
triggers the administrative downgrade — because the code tests
`not points_sum()`, not ledger emptiness as the claim states. -/
theorem c6_counterexample :
    (resultStep "cyclocross" initState c6r1).map
      (fun o => (o.1.categories, o.1.cat_points)) = some ([3], [⟨0, "5", 10000⟩]) ∧
    ([⟨0, "5", 10000⟩] : List Point) ≠ [] ∧
    ((resultStep "cyclocross" initState c6r1).bind
      (fun o => resultStep "cyclocross" o.1 c6r2)).map
        (fun o => (o.1.categories, o.2.map PointsRow.notes)) =
      some ([4], some "Downgraded to 4") ∧
    ([4] : List ℤ) ≠ [3] := by
  decide

theorem expirePhase_cat_points (s : CState) (d : ℤ) :
    (expirePhase s d).cat_points = (expire_points s.cat_points d).2 := rfl

theorem expire_points_fst (l : List Point) (d : ℤ) :
    (expire_points l d).1 =
      ((l.filter (fun p => decide (372 < d - p.date))).map Point.value).sum := rfl

theorem expire_points_snd (l : List Point) (d : ℤ) :
    (expire_points l d).2 = l.filter (fun p => decide (d - p.date ≤ 372)) := rfl

theorem mem_expire_points {l : List Point} {d : ℤ} {p : Point}
    (hp : p ∈ (expire_points l d).2) : p ∈ l ∧ d - p.date ≤ 372 := by
  unfold expire_points at hp
  simp only [List.mem_filter, decide_eq_true_eq] at hp
  exact hp

theorem noteAdd_mem (l : List String) (x : String) : x ∈ noteAdd l x := by
  unfold noteAdd
  split
  · assumption
  · simp

theorem points_sum_expire_split (l : List Point) (d : ℤ) :
    points_sum l =
      ((l.filter (fun p => decide (372 < d - p.date))).map Point.value).sum +
      points_sum (l.filter (fun p => decide (d - p.date ≤ 372))) := by
  induction l with
  | nil => simp [points_sum]
  | cons p l ih =>
    by_cases h : 372 < d - p.date
    · have h2 : ¬ (d - p.date ≤ 372) := not_le.mpr h
      simp only [points_sum, List.filter_cons, List.map_cons, List.sum_cons,
        decide_eq_true h, decide_eq_false h2, if_true, if_false, Bool.false_eq_true] at *
      omega
    · have h2 : d - p.date ≤ 372 := not_lt.mp h
      simp only [points_sum, List.filter_cons, List.map_cons, List.sum_cons,
        decide_eq_false h, decide_eq_true h2, if_true, if_false, Bool.false_eq_true] at *
      omega

/-- The transition phase only keeps existing ledger entries (possibly after a
clear) and appends one entry dated at the race date being processed. -/
theorem transition_cat_points {disc : String} {s : CState} {r : RInput} {t : CState × Option ℤ}
    (h : transition disc s r = some t) :
    ∀ p ∈ t.1.cat_points, p ∈ s.cat_points ∨ p.date = r.raceDate := by
  unfold transition at h
  split at h
  · dsimp only at h
    by_cases hw : hasWomen r.raceName = true
    all_goals
      first
      | rw [if_pos hw] at h
      | rw [if_neg hw] at h
    all_goals repeat' split at h
    all_goals
      first
      | exact Option.noConfusion h
      | (obtain rfl := Option.some.inj h
         intro p hp
         simp only [appendPoint, List.mem_append, List.mem_singleton] at hp
         rcases hp with hp | hp
         · first
           | (left; exact hp)
           | exact absurd hp (List.not_mem_nil p)
         · right; subst hp; rfl)
  · obtain rfl := Option.some.inj h
    intro p hp
    simp only [appendPoint, List.mem_append, List.mem_singleton] at hp
    rcases hp with hp | hp
    · left; exact hp
    · right; subst hp; rfl

/-- C8: every ledger entry remaining after the expire step is dated at most
372 days (365 plus the 7-day grace) before the race date being processed; the
value removed is exactly the drop in the rolling sum, and it is reported as an
"EXPIRED" note when non-zero; moreover after a full successful result step
every ledger entry is still within 372 days of that result's race date. -/
theorem c8_expiry_invariant :
    (∀ (s : CState) (d : ℤ), ∀ p ∈ (expirePhase s d).cat_points, d - p.date ≤ 372) ∧
    (∀ (s : CState) (d : ℤ),
      (expire_points s.cat_points d).1 =
        points_sum s.cat_points - points_sum (expirePhase s d).cat_points ∧
      ((expire_points s.cat_points d).1 ≠ 0 →
        expiredNote (expire_points s.cat_points d).1 ∈ (expirePhase s d).upgrade_notes)) ∧
    (∀ (disc : String) (s : CState) (r : RInput) (out : CState × Option PointsRow),
      resultStep disc s r = some out → ∀ p ∈ out.1.cat_points, r.raceDate - p.date ≤ 372) := by
  refine ⟨?_, ?_, ?_⟩
  · intro s d p hp
    rw [expirePhase_cat_points] at hp
    exact (mem_expire_points hp).2
  · intro s d
    constructor
    · rw [expirePhase_cat_points, expire_points_fst, expire_points_snd]
      have := points_sum_expire_split s.cat_points d
      omega
    · intro hne
      show expiredNote (expire_points s.cat_points d).1 ∈
        (if (expire_points s.cat_points d).1 ≠ 0
         then noteAdd s.upgrade_notes (expiredNote (expire_points s.cat_points d).1)
         else s.upgrade_notes)
      rw [if_pos hne]
      exact noteAdd_mem _ _
  · intro disc s r out h p hp
    unfold resultStep at h
    cases ht : transition disc (expirePhase s r.raceDate) r with
    | none => rw [ht] at h; cases h
    | some t =>
      rw [ht] at h
      dsimp only at h
      obtain ⟨-, hpts, -⟩ := finalize_some h
      rw [hpts] at hp
      rcases transition_cat_points ht p hp with hmem | hdate
      · rw [expirePhase_cat_points] at hmem
        exact (mem_expire_points hmem).2
      · rw [hdate]
        omega

/-- C8 witness: the invariant applied to a concrete step with one expiring
entry (400 days old, 7 points) and one surviving entry. -/
theorem c8_witness :
    resultStep "cyclocross" c8s c8r = some c8out ∧
    expiredNote (expire_points c8s.cat_points 10400).1 ∈
      (expirePhase c8s 10400).upgrade_notes ∧
    (10400 : ℤ) - (⟨3, "2", 10030⟩ : Point).date ≤ 372 ∧
    (10400 : ℤ) - (⟨0, "2", 10400⟩ : Point).date ≤ 372 :=
  ⟨by decide,
   (c8_expiry_invariant.2.1 c8s 10400).2 (by decide),
   c8_expiry_invariant.2.2 "cyclocross" c8s c8r c8out (by decide) ⟨3, "2", 10030⟩ (by decide),
   c8_expiry_invariant.2.2 "cyclocross" c8s c8r c8out (by decide) ⟨0, "2", 10400⟩ (by decide)⟩

/-- C10 witness: the unknown discipline "bmx" never blocks an upgrade and
never demands one. -/
theorem c10_witness :
    lookupUpgrade "bmx" 3 = none ∧
    can_upgrade "bmx" 50 3 [] true = some true ∧
    needs_upgrade "bmx" 50 [4] [] = some false :=
  ⟨by decide,
   (c10_unknown_config_permissive "bmx" 3 50 [] true [4] (by decide) (by decide)).1,
   (c10_unknown_config_permissive "bmx" 3 50 [] true [4] (by decide) (by decide)).2⟩

end Obra
